import Mathlib

/-!
Shallow embedding of the question-harvesting scripts
`scrape_questions.py` (text-sink variant), `scrape_system_design_questions.py`
(JSON-output variant) and `enhanced_scraper.py` (enhanced variant).

Network I/O is abstracted by a `Fetch` outcome per HTTP GET: either a
response carrying its integer status code together with the parts of the
document that the extractor reads (the stripped texts of the selected
elements, or the parsed JSON items), or a raised exception (`exn`).
Python sets have an unspecified iteration order, so `list(set(xs))` is
modelled by an arbitrary function `f` subject to `IsSetListing f`:
`f xs` is duplicate-free and has exactly the members of `xs`.
-/

/-- Outcome of one HTTP GET: a response with status code and the document
content relevant to the extractor at that call site, or a raised exception
(timeout, connection error, decode error), which the scripts catch. -/
inductive Fetch (α : Type) where
  | ok (status : Nat) (doc : α)
  | exn
deriving Repr

/-- Python `str.lower()` (ASCII-adequate, per-character lowering). -/
def pyLower (s : String) : String := ⟨s.data.map Char.toLower⟩

/-- Python `str.upper()` (ASCII-adequate, per-character uppering). -/
def pyUpper (s : String) : String := ⟨s.data.map Char.toUpper⟩

/-- `leadsIn pat s`: `pat` is an initial segment of `s`. -/
def leadsIn : List Char → List Char → Bool
  | [], _ => true
  | _ :: _, [] => false
  | a :: as, b :: bs => a == b && leadsIn as bs

/-- `occursIn pat s`: `pat` occurs contiguously somewhere in `s`. -/
def occursIn (pat : List Char) : List Char → Bool
  | [] => pat.isEmpty
  | c :: rest => leadsIn pat (c :: rest) || occursIn pat rest

/-- Python `needle in hay` on strings: substring containment. -/
def pyIn (needle hay : String) : Bool := occursIn needle.data hay.data

/-- `list(set(xs))` in Python returns the distinct elements of `xs` in an
unspecified (hash-dependent) iteration order: `IsSetListing f` says `f` is
one admissible such listing: no duplicates, and exactly the members of the
input. -/
def IsSetListing (f : List String → List String) : Prop :=
  ∀ l : List String, (f l).Nodup ∧ ∀ x : String, x ∈ f l ↔ x ∈ l

/-- An admissible set listing: the distinct elements in reversed order.
Python makes no ordering promise, so this is as legitimate an iteration
order as any (used to show order-dependence of downstream output). -/
def revListing (l : List String) : List String := l.dedup.reverse

/-! ## scrape_questions.py (text-sink variant) -/

/-- The fixed company list shared by all three scripts. -/
def companies : List String := ["Atlassian", "PayPal", "Mastercard"]

/-- The `known_questions` fallback table of `scrape_questions.py`
(lines 46-68), as a lookup returning `[]` for a company absent from the
dict. -/
def known_questions (company : String) : List String :=
  if company = "Atlassian" then
    ["Design a collaborative document editing system like Confluence",
     "Design a project management tool like Jira",
     "Design a real-time chat system for teams",
     "Design a file sharing platform",
     "Design a notification system"]
  else if company = "PayPal" then
    ["Design a payment processing system",
     "Design a fraud detection system",
     "Design a digital wallet",
     "Design a money transfer system",
     "Design a merchant payment gateway"]
  else if company = "Mastercard" then
    ["Design a credit card transaction system",
     "Design a real-time fraud detection system",
     "Design a global payment network",
     "Design a loyalty rewards system",
     "Design a merchant acquiring platform"]
  else []

/-- Keyword test of `scrape_questions.py` line 37:
`any(word in title.lower() for word in ['design', 'system', 'interview'])`. -/
def keepTitle1 (title : String) : Bool :=
  ["design", "system", "interview"].any (fun word => pyIn word (pyLower title))

/-- The try-block of `search_questions` (lines 26-43): on a 200 response the
first 5 `result__a` anchor texts are kept when they pass the keyword test;
a non-200 status or a raised exception contributes nothing. -/
def harvestDDG (out : Fetch (List String)) : List String :=
  match out with
  | .ok status anchors =>
      if status == 200 then (anchors.take 5).filter keepTitle1 else []
  | .exn => []

/-- `search_questions` (lines 21-73): harvested titles, extended with the
fallback list, then `list(set(...))` under the set listing `f`. -/
def search_questions (out : Fetch (List String)) (company : String)
    (f : List String → List String) : List String :=
  f (harvestDDG out ++ known_questions company)

/-- A horizontal rule of 60 `=` characters (`'='*60`). -/
def eqLine : String := ⟨List.replicate 60 '='⟩

/-- The lines `main` of `scrape_questions.py` appends for one company
(lines 85-90): three banner lines, then one numbered line per question
(`enumerate(questions, 1)`). -/
def company_section (company : String) (questions : List String) : List String :=
  ("\n" ++ eqLine) ::
  (pyUpper company ++ " SYSTEM DESIGN QUESTIONS") ::
  eqLine ::
  questions.enum.map (fun p => toString (p.1 + 1) ++ ". " ++ p.2)

/-- `main` of `scrape_questions.py` (lines 75-96): the list of lines that is
joined with newlines and written to `system_design_questions.txt`. The
oracle gives the fetch outcome of the single DuckDuckGo query per company. -/
def text_main (oracle : String → Fetch (List String))
    (f : List String → List String) : List String :=
  (companies.map (fun c => company_section c (search_questions (oracle c) c f))).flatten

/-! ## scrape_system_design_questions.py (JSON-output variant) -/

/-- The `common_questions` fallback table of `extract_common_questions`
(lines 107-132), as a lookup returning `[]` for a company absent from the
dict. -/
def common_questions (company : String) : List String :=
  if company = "Atlassian" then
    ["Design a collaborative document editing system like Confluence",
     "Design a project management system like Jira",
     "Design a real-time chat system for teams",
     "Design a file sharing and collaboration platform",
     "Design a notification system for team updates"]
  else if company = "PayPal" then
    ["Design a payment processing system",
     "Design a fraud detection system",
     "Design a wallet system for digital payments",
     "Design a money transfer system",
     "Design a merchant payment gateway"]
  else if company = "Mastercard" then
    ["Design a credit card transaction processing system",
     "Design a real-time fraud detection system",
     "Design a global payment network",
     "Design a loyalty points system",
     "Design a merchant acquiring system"]
  else []

/-- Keyword test of `search_leetcode_discuss` line 53:
`any(keyword in title.lower() for keyword in ['system design', 'design', 'architecture'])`. -/
def keepTitleLC (title : String) : Bool :=
  ["system design", "design", "architecture"].any (fun w => pyIn w (pyLower title))

/-- `search_leetcode_discuss` (lines 36-59). The document is the list of
`topic-title` divs, each carrying the stripped text of its inner `a` when
one exists. On a 200 response the first 5 topics are scanned and keyword
filtered, returning a list; on a raised exception the handler returns `[]`;
on any other status the function falls off the `if` and returns Python
`None`, modelled as `none`. -/
def search_leetcode_discuss (out : Fetch (List (Option String))) :
    Option (List String) :=
  match out with
  | .exn => some []
  | .ok status topics =>
      if status == 200 then
        some (((topics.take 5).filterMap id).filter keepTitleLC)
      else none

/-- `search_glassdoor_alternative` (lines 61-83): first 3 `result__a`
anchor texts of a 200 response, kept when `'system design' in title.lower()`;
`[]` on exception, Python `None` on any other status. -/
def search_glassdoor_alternative (out : Fetch (List String)) :
    Option (List String) :=
  match out with
  | .exn => some []
  | .ok status results =>
      if status == 200 then
        some ((results.take 3).filter (fun t => pyIn "system design" (pyLower t)))
      else none

/-- `search_github_repos` (lines 85-105). The document is the parsed `items`
array as (name, description) pairs, with `""` for a missing or null field.
For each of the first 3 repos, `f"{name}: {description}"` is kept when the
description is truthy and contains `'system design'` case-folded; `[]` on
exception, Python `None` on any non-200 status. -/
def search_github_repos (out : Fetch (List (String × String))) :
    Option (List String) :=
  match out with
  | .exn => some []
  | .ok status items =>
      if status == 200 then
        some ((items.take 3).filterMap (fun repo =>
          if repo.2 ≠ "" ∧ pyIn "system design" (pyLower repo.2) = true then
            some (repo.1 ++ ": " ++ repo.2)
          else none))
      else none

/-- `scrape_company_questions` (lines 134-169): extends `all_questions`
with the three source results in order — `extend(None)` raises a
`TypeError`, modelled by `Option` bind returning `none` — then appends the
fallback entries, deduplicates via `list(set(...))` under the set listing
`f`, and keeps only questions with `len(q) > 10 and len(q) < 200`. -/
def scrape_company_questions (o1 : Fetch (List (Option String)))
    (o2 : Fetch (List String)) (o3 : Fetch (List (String × String)))
    (company : String) (f : List String → List String) :
    Option (List String) := do
  let leetcode_questions ← search_leetcode_discuss o1
  let alternative_questions ← search_glassdoor_alternative o2
  let github_questions ← search_github_repos o3
  let all_questions := leetcode_questions ++ alternative_questions ++
    github_questions ++ common_questions company
  let unique_questions := f all_questions
  pure (unique_questions.filter
    (fun q => decide (10 < q.length) && decide (q.length < 200)))

/-- Per-company fetch outcomes for the three sources queried by
`scrape_company_questions`. -/
structure CompanyFetches where
  lc : Fetch (List (Option String))
  gd : Fetch (List String)
  gh : Fetch (List (String × String))

/-- The per-company loop of `main` (lines 196-200): each company is scraped
inside `try/except`, so `self.results` — the mapping later serialized to
`system_design_questions.json` — receives a key exactly for the companies
whose scrape did not raise. -/
def json_main (oracle : String → CompanyFetches)
    (f : List String → List String) : List (String × List String) :=
  companies.filterMap (fun c =>
    (scrape_company_questions (oracle c).lc (oracle c).gd (oracle c).gh c f).map
      (fun qs => (c, qs)))

/-! ## enhanced_scraper.py (enhanced variant) -/

/-- The 10 query templates of `search_comprehensive` (lines 25-36). -/
def search_queries (company : String) : List String :=
  [company ++ " system design interview questions",
   company ++ " senior software engineer interview system design",
   company ++ " L5 L6 system design round",
   company ++ " staff engineer system design interview",
   company ++ " principal engineer interview experience",
   "site:leetcode.com " ++ company ++ " system design",
   "site:reddit.com " ++ company ++ " interview system design",
   "site:glassdoor.com " ++ company ++ " system design questions",
   "site:github.com " ++ company ++ " system design interview",
   company ++ " onsite interview system design round"]

/-- Keyword test of `enhanced_scraper.py` line 49:
`any(word in title.lower() for word in ['design', 'system', 'interview', 'experience'])`. -/
def keepTitle4 (title : String) : Bool :=
  ["design", "system", "interview", "experience"].any
    (fun word => pyIn word (pyLower title))

/-- The loop body of `search_comprehensive` for one query (lines 38-56):
on a 200 response the first 3 `result__a` anchor texts passing the keyword
test are added to the set; a non-200 status or a raised exception (handled
by `continue`) contributes nothing. -/
def query_contribution (out : Fetch (List String)) : List String :=
  match out with
  | .ok status results =>
      if status == 200 then (results.take 3).filter keepTitle4 else []
  | .exn => []

/-- `search_comprehensive` (lines 21-58): the titles accumulated into the
`all_questions` set over the 10 queries, returned as `list(all_questions)`
under the set listing `f`. The oracle gives the fetch outcome per query
string. -/
def search_comprehensive (company : String)
    (oracle : String → Fetch (List String))
    (f : List String → List String) : List String :=
  f (((search_queries company).map (fun q => query_contribution (oracle q))).flatten)

/-- The chunks `main` of `enhanced_scraper.py` writes for one company
(lines 70-75): three banner writes, then one numbered line per question. -/
def enhanced_section (company : String) (questions : List String) : List String :=
  ("\n" ++ eqLine ++ "\n") ::
  (pyUpper company ++ " - ADDITIONAL QUESTIONS FOUND\n") ::
  (eqLine ++ "\n") ::
  questions.enum.map (fun p => toString (p.1 + 1) ++ ". " ++ p.2 ++ "\n")

/-- `main` of `enhanced_scraper.py` (lines 60-79): the chunks written to
`additional_questions.txt` across the per-company loop. -/
def enhanced_main (oracle : String → Fetch (List String))
    (f : List String → List String) : List String :=
  (companies.map (fun c => enhanced_section c (search_comprehensive c oracle f))).flatten

/-! ## Helper lemmas -/

/-- One admissible set listing (used to instantiate witnesses). -/
theorem dedup_isSetListing : IsSetListing (fun l => l.dedup) :=
  fun l => ⟨l.nodup_dedup, fun _ => List.mem_dedup⟩

theorem revListing_isSetListing : IsSetListing revListing :=
  fun l => ⟨List.nodup_reverse.mpr l.nodup_dedup, fun x => by
    simp [revListing, List.mem_reverse, List.mem_dedup]⟩

/-- An admissible set listing of the empty list is empty. -/
theorem setListing_nil {f : List String → List String} (hf : IsSetListing f) :
    f [] = [] := by
  refine List.eq_nil_iff_forall_not_mem.mpr (fun x hx => ?_)
  exact absurd ((hf []).2 x |>.mp hx) (List.not_mem_nil x)

/-- Sanity checks of the embedding on concrete runs. -/
example : search_questions Fetch.exn "PayPal" (fun l => l.dedup)
    = known_questions "PayPal" := by decide

example : search_questions (Fetch.ok 200 ["Atlassian System Design Interview", "Unrelated Topic"])
    "Nobody" (fun l => l.dedup) = ["Atlassian System Design Interview"] := by decide

example : scrape_company_questions Fetch.exn Fetch.exn Fetch.exn "PayPal"
    (fun l => l.dedup) = some (common_questions "PayPal") := by decide

example : scrape_company_questions (Fetch.ok 500 []) (Fetch.ok 200 [])
    (Fetch.ok 200 []) "PayPal" (fun l => l.dedup) = none := by decide

example : search_comprehensive "PayPal" (fun _ => Fetch.exn) (fun l => l.dedup) = [] := by
  decide

/-- Every fallback entry of the JSON-output variant passes its length
filter `len(q) > 10 and len(q) < 200`. -/
theorem common_questions_bounded (company q : String)
    (h : q ∈ common_questions company) :
    (decide (10 < q.length) && decide (q.length < 200)) = true := by
  unfold common_questions at h
  split_ifs at h
  · fin_cases h <;> decide
  · fin_cases h <;> decide
  · fin_cases h <;> decide
  · exact absurd h (List.not_mem_nil q)

/-- An occurrence in `s` is an occurrence in `t ++ s`. -/
theorem occursIn_append_left (pat s t : List Char) (h : occursIn pat s = true) :
    occursIn pat (t ++ s) = true := by
  induction t with
  | nil => simpa using h
  | cons c rest ih =>
      show occursIn pat (c :: (rest ++ s)) = true
      unfold occursIn
      simp [ih]

/-- A case-folded substring of `b` is a case-folded substring of `a ++ b`. -/
theorem pyIn_pyLower_append_right (w a b : String)
    (h : pyIn w (pyLower b) = true) : pyIn w (pyLower (a ++ b)) = true := by
  unfold pyIn pyLower at h ⊢
  simpa [String.data_append, List.map_append] using
    occursIn_append_left w.data (b.data.map Char.toLower) (a.data.map Char.toLower) h

/-- Success characterization of `scrape_company_questions`: the run returns
a list exactly when no source helper returned `None`, and the list is the
deduplicated merge, length filtered. -/
theorem scrape_company_questions_eq_some (o1 : Fetch (List (Option String)))
    (o2 : Fetch (List String)) (o3 : Fetch (List (String × String)))
    (company : String) (f : List String → List String) (res : List String) :
    scrape_company_questions o1 o2 o3 company f = some res ↔
    ∃ l1 l2 l3, search_leetcode_discuss o1 = some l1 ∧
      search_glassdoor_alternative o2 = some l2 ∧
      search_github_repos o3 = some l3 ∧
      res = (f (l1 ++ l2 ++ l3 ++ common_questions company)).filter
        (fun q => decide (10 < q.length) && decide (q.length < 200)) := by
  unfold scrape_company_questions
  cases h1 : search_leetcode_discuss o1 <;>
    cases h2 : search_glassdoor_alternative o2 <;>
      cases h3 : search_github_repos o3 <;>
        simp [Option.bind, eq_comm]

/-! ## Claims -/

/-- C7: for every company, the final collection of titles produced for that
company contains no two exactly-equal strings, in every variant: the
text-sink `search_questions` result, any list the JSON-output
`scrape_company_questions` returns, and the enhanced
`search_comprehensive` result are all duplicate-free. -/
theorem c7_final_collections_nodup (f : List String → List String)
    (hf : IsSetListing f) :
    (∀ (out : Fetch (List String)) (company : String),
      (search_questions out company f).Nodup) ∧
    (∀ o1 o2 o3 (company : String) (res : List String),
      scrape_company_questions o1 o2 o3 company f = some res → res.Nodup) ∧
    (∀ (company : String) (oracle : String → Fetch (List String)),
      (search_comprehensive company oracle f).Nodup) := by
  refine ⟨fun out company => (hf _).1, ?_, fun company oracle => (hf _).1⟩
  intro o1 o2 o3 company res h
  obtain ⟨l1, l2, l3, -, -, -, rfl⟩ :=
    (scrape_company_questions_eq_some o1 o2 o3 company f res).mp h
  exact ((hf _).1).filter _

/-- Witness for C7 at concrete runs: an all-failing text-sink run for
Atlassian, the all-failing JSON run for PayPal (whose result list is its
fallback list), and an all-failing enhanced run. -/
theorem c7_final_collections_nodup_witness :
    (search_questions Fetch.exn "Atlassian" (fun l => l.dedup)).Nodup ∧
    (common_questions "PayPal").Nodup ∧
    (search_comprehensive "Mastercard" (fun _ => Fetch.exn) (fun l => l.dedup)).Nodup := by
  have h := c7_final_collections_nodup (fun l => l.dedup) dedup_isSetListing
  exact ⟨h.1 Fetch.exn "Atlassian",
    h.2.1 Fetch.exn Fetch.exn Fetch.exn "PayPal" (common_questions "PayPal") (by decide),
    h.2.2 "Mastercard" (fun _ => Fetch.exn)⟩

/-- C6: in the JSON-output variant, every title kept in a company's final
list (harvested ones in particular) has length strictly greater than 10 and
strictly less than 200. -/
theorem c6_kept_titles_length_bounded (o1 : Fetch (List (Option String)))
    (o2 : Fetch (List String)) (o3 : Fetch (List (String × String)))
    (company : String) (f : List String → List String) (res : List String)
    (h : scrape_company_questions o1 o2 o3 company f = some res) :
    ∀ t ∈ res, 10 < t.length ∧ t.length < 200 := by
  obtain ⟨l1, l2, l3, -, -, -, rfl⟩ :=
    (scrape_company_questions_eq_some o1 o2 o3 company f res).mp h
  intro t ht
  have hb := (List.mem_filter.mp ht).2
  simp only [Bool.and_eq_true, decide_eq_true_eq] at hb
  exact hb

/-- Witness for C6: a concrete successful JSON run for PayPal whose final
list is its fallback list; its first entry satisfies the bounds. -/
theorem c6_kept_titles_length_bounded_witness :
    10 < ("Design a payment processing system").length ∧
    ("Design a payment processing system").length < 200 :=
  c6_kept_titles_length_bounded Fetch.exn Fetch.exn Fetch.exn "PayPal"
    (fun l => l.dedup) (common_questions "PayPal") (by decide)
    "Design a payment processing system" (by decide)

/-- C10: in the JSON-output variant the length filter runs after the
fallback merge, so every string of the final list — fallback entries
included — is length-bounded, and any string outside the bounds (were a
fallback entry ever outside them) is absent from the final list. -/
theorem c10_length_filter_after_merge (o1 : Fetch (List (Option String)))
    (o2 : Fetch (List String)) (o3 : Fetch (List (String × String)))
    (company : String) (f : List String → List String) (res : List String)
    (h : scrape_company_questions o1 o2 o3 company f = some res) :
    (∀ t ∈ res, 10 < t.length ∧ t.length < 200) ∧
    (∀ q : String, ¬(10 < q.length ∧ q.length < 200) → q ∉ res) := by
  obtain ⟨l1, l2, l3, -, -, -, rfl⟩ :=
    (scrape_company_questions_eq_some o1 o2 o3 company f res).mp h
  constructor
  · intro t ht
    have hb := (List.mem_filter.mp ht).2
    simp only [Bool.and_eq_true, decide_eq_true_eq] at hb
    exact hb
  · intro q hq hmem
    have hb := (List.mem_filter.mp hmem).2
    simp only [Bool.and_eq_true, decide_eq_true_eq] at hb
    exact hq hb

/-- Witness for C10: on the concrete PayPal run, a fallback entry of the
final list is bounded and the too-short string `"too short"` is absent. -/
theorem c10_length_filter_after_merge_witness :
    (10 < ("Design a fraud detection system").length ∧
      ("Design a fraud detection system").length < 200) ∧
    "too short" ∉ common_questions "PayPal" := by
  obtain ⟨h1, h2⟩ := c10_length_filter_after_merge Fetch.exn Fetch.exn
    Fetch.exn "PayPal" (fun l => l.dedup) (common_questions "PayPal") (by decide)
  exact ⟨h1 "Design a fraud detection system" (by decide),
    h2 "too short" (by decide)⟩

/-- C1: for every company in the fixed list, the final collection produced
for it contains every entry of its static fallback list — in the text-sink
variant unconditionally, and in the JSON-output variant for whichever list
the run returns. -/
theorem c1_fallback_superset (company : String) (_hc : company ∈ companies)
    (f : List String → List String) (hf : IsSetListing f) :
    (∀ (out : Fetch (List String)) (q : String),
      q ∈ known_questions company → q ∈ search_questions out company f) ∧
    (∀ o1 o2 o3 (res : List String) (q : String),
      scrape_company_questions o1 o2 o3 company f = some res →
      q ∈ common_questions company → q ∈ res) := by
  constructor
  · intro out q hq
    exact ((hf _).2 q).mpr (List.mem_append.mpr (Or.inr hq))
  · intro o1 o2 o3 res q h hq
    obtain ⟨l1, l2, l3, -, -, -, rfl⟩ :=
      (scrape_company_questions_eq_some o1 o2 o3 company f res).mp h
    exact List.mem_filter.mpr
      ⟨((hf _).2 q).mpr (List.mem_append.mpr (Or.inr hq)),
        common_questions_bounded company q hq⟩

/-- Witness for C1 at Atlassian: a fallback entry of each variant is in the
final output of an all-failing concrete run. -/
theorem c1_fallback_superset_witness :
    "Design a notification system" ∈
      search_questions Fetch.exn "Atlassian" (fun l => l.dedup) ∧
    "Design a notification system for team updates" ∈ common_questions "Atlassian" := by
  obtain ⟨h1, h2⟩ := c1_fallback_superset "Atlassian" (by decide)
    (fun l => l.dedup) dedup_isSetListing
  exact ⟨h1 Fetch.exn "Design a notification system" (by decide),
    h2 Fetch.exn Fetch.exn Fetch.exn (common_questions "Atlassian")
      "Design a notification system for team updates" (by decide) (by decide)⟩

/-- C4: when every network call for a company raises, the final collection
equals the fallback list by membership — `search_questions` and
`scrape_company_questions` return exactly their fallback entries, and the
enhanced variant (which has no fallback table) returns the empty list. -/
theorem c4_all_failures_give_fallback (company : String)
    (f : List String → List String) (hf : IsSetListing f) :
    (∀ x : String, x ∈ search_questions Fetch.exn company f ↔
      x ∈ known_questions company) ∧
    (∃ res : List String,
      scrape_company_questions Fetch.exn Fetch.exn Fetch.exn company f = some res ∧
      ∀ x : String, x ∈ res ↔ x ∈ common_questions company) ∧
    search_comprehensive company (fun _ => Fetch.exn) f = [] := by
  refine ⟨fun x => (hf _).2 x, ?_, ?_⟩
  · refine ⟨(f (common_questions company)).filter
      (fun q => decide (10 < q.length) && decide (q.length < 200)), ?_, ?_⟩
    · exact (scrape_company_questions_eq_some _ _ _ company f _).mpr
        ⟨[], [], [], rfl, rfl, rfl, rfl⟩
    · intro x
      constructor
      · intro hx
        exact ((hf _).2 x).mp (List.mem_filter.mp hx).1
      · intro hx
        exact List.mem_filter.mpr
          ⟨((hf _).2 x).mpr hx, common_questions_bounded company x hx⟩
  · have hflat : ∀ l : List String,
        (l.map (fun _ => ([] : List String))).flatten = [] := by
      intro l
      induction l with
      | nil => rfl
      | cons a l ih => simp [ih]
    unfold search_comprehensive
    have : ((search_queries company).map
        (fun q => query_contribution Fetch.exn)) =
        (search_queries company).map (fun _ => ([] : List String)) := rfl
    rw [this, hflat, setListing_nil hf]

/-- Witness for C4 at Mastercard on concrete all-failing runs. -/
theorem c4_all_failures_give_fallback_witness :
    ("Design a global payment network" ∈
      search_questions Fetch.exn "Mastercard" (fun l => l.dedup) ↔
      "Design a global payment network" ∈ known_questions "Mastercard") ∧
    (∃ res : List String,
      scrape_company_questions Fetch.exn Fetch.exn Fetch.exn "Mastercard"
        (fun l => l.dedup) = some res ∧
      ∀ x : String, x ∈ res ↔ x ∈ common_questions "Mastercard") ∧
    search_comprehensive "Mastercard" (fun _ => Fetch.exn) (fun l => l.dedup) = [] := by
  obtain ⟨h1, h2, h3⟩ := c4_all_failures_give_fallback "Mastercard"
    (fun l => l.dedup) dedup_isSetListing
  exact ⟨h1 "Design a global payment network", h2, h3⟩

/-- Every title `search_leetcode_discuss` returns passes its keyword test. -/
theorem search_leetcode_discuss_kw (o1 : Fetch (List (Option String)))
    (l1 : List String) (t : String) (h : search_leetcode_discuss o1 = some l1)
    (ht : t ∈ l1) : keepTitleLC t = true := by
  cases o1 with
  | exn =>
      simp only [search_leetcode_discuss, Option.some.injEq] at h
      subst h
      exact absurd ht (List.not_mem_nil t)
  | ok status topics =>
      simp only [search_leetcode_discuss] at h
      split at h
      · obtain rfl := Option.some_inj.mp h
        exact (List.mem_filter.mp ht).2
      · exact absurd h (by simp)

/-- Every title `search_glassdoor_alternative` returns contains
`'system design'` case-folded. -/
theorem search_glassdoor_alternative_kw (o2 : Fetch (List String))
    (l2 : List String) (t : String)
    (h : search_glassdoor_alternative o2 = some l2) (ht : t ∈ l2) :
    pyIn "system design" (pyLower t) = true := by
  cases o2 with
  | exn =>
      simp only [search_glassdoor_alternative, Option.some.injEq] at h
      subst h
      exact absurd ht (List.not_mem_nil t)
  | ok status results =>
      simp only [search_glassdoor_alternative] at h
      split at h
      · obtain rfl := Option.some_inj.mp h
        exact (List.mem_filter.mp ht).2
      · exact absurd h (by simp)

/-- Every title `search_github_repos` returns contains `'system design'`
case-folded (inside its description part). -/
theorem search_github_repos_kw (o3 : Fetch (List (String × String)))
    (l3 : List String) (t : String) (h : search_github_repos o3 = some l3)
    (ht : t ∈ l3) : pyIn "system design" (pyLower t) = true := by
  cases o3 with
  | exn =>
      simp only [search_github_repos, Option.some.injEq] at h
      subst h
      exact absurd ht (List.not_mem_nil t)
  | ok status items =>
      simp only [search_github_repos] at h
      split at h
      · obtain rfl := Option.some_inj.mp h
        obtain ⟨repo, -, hrepo⟩ := List.mem_filterMap.mp ht
        split at hrepo
        · obtain rfl := Option.some_inj.mp hrepo
          rename_i hcond
          exact pyIn_pyLower_append_right "system design" _ _ hcond.2
        · exact absurd hrepo (by simp)
      · exact absurd h (by simp)

/-- C5: every harvested title kept by a keyword filter — that is, every
title of a final collection that is not a fallback entry — contains, after
case folding, at least one keyword of the set configured at its call site:
`['design', 'system', 'interview']` in the text-sink variant,
`['system design', 'design', 'architecture']` / `'system design'` in the
JSON-output variant, `['design', 'system', 'interview', 'experience']` in
the enhanced variant. -/
theorem c5_kept_titles_have_keyword (f : List String → List String)
    (hf : IsSetListing f) :
    (∀ (out : Fetch (List String)) (company t : String),
      t ∈ search_questions out company f →
      t ∈ known_questions company ∨
        ∃ w ∈ (["design", "system", "interview"] : List String),
          pyIn w (pyLower t) = true) ∧
    (∀ o1 o2 o3 (company : String) (res : List String) (t : String),
      scrape_company_questions o1 o2 o3 company f = some res → t ∈ res →
      t ∈ common_questions company ∨
        ∃ w ∈ (["system design", "design", "architecture"] : List String),
          pyIn w (pyLower t) = true) ∧
    (∀ (company : String) (oracle : String → Fetch (List String)) (t : String),
      t ∈ search_comprehensive company oracle f →
      ∃ w ∈ (["design", "system", "interview", "experience"] : List String),
        pyIn w (pyLower t) = true) := by
  refine ⟨?_, ?_, ?_⟩
  · intro out company t ht
    rcases List.mem_append.mp (((hf _).2 t).mp ht) with hh | hk
    · right
      cases out with
      | exn => exact absurd hh (List.not_mem_nil t)
      | ok status anchors =>
          simp only [harvestDDG] at hh
          by_cases hs : (status == 200) = true
          · rw [if_pos hs] at hh
            have hkt := (List.mem_filter.mp hh).2
            unfold keepTitle1 at hkt
            simpa using List.any_eq_true.mp hkt
          · rw [if_neg hs] at hh
            exact absurd hh (List.not_mem_nil t)
    · exact Or.inl hk
  · intro o1 o2 o3 company res t h ht
    obtain ⟨l1, l2, l3, h1, h2, h3, rfl⟩ :=
      (scrape_company_questions_eq_some o1 o2 o3 company f res).mp h
    have hmem := ((hf _).2 t).mp (List.mem_filter.mp ht).1
    rcases List.mem_append.mp hmem with hmem' | hcommon
    · rcases List.mem_append.mp hmem' with hmem'' | hgh
      · rcases List.mem_append.mp hmem'' with hlc | hgd
        · right
          exact List.any_eq_true.mp (search_leetcode_discuss_kw o1 l1 t h1 hlc)
        · right
          exact ⟨"system design", by simp,
            search_glassdoor_alternative_kw o2 l2 t h2 hgd⟩
      · right
        exact ⟨"system design", by simp, search_github_repos_kw o3 l3 t h3 hgh⟩
    · exact Or.inl hcommon
  · intro company oracle t ht
    have hmem := ((hf _).2 t).mp ht
    obtain ⟨chunk, hchunk, htc⟩ := List.mem_flatten.mp hmem
    obtain ⟨q, -, rfl⟩ := List.mem_map.mp hchunk
    cases hq : oracle q with
    | exn => rw [hq] at htc; exact absurd htc (List.not_mem_nil t)
    | ok status anchors =>
        rw [hq] at htc
        simp only [query_contribution] at htc
        by_cases hs : (status == 200) = true
        · rw [if_pos hs] at htc
          have hkt := (List.mem_filter.mp htc).2
          unfold keepTitle4 at hkt
          simpa using List.any_eq_true.mp hkt
        · rw [if_neg hs] at htc
          exact absurd htc (List.not_mem_nil t)

/-- Witness for C5 on concrete single-result runs: the kept title is not a
fallback entry, so the theorem yields its keyword in each variant. -/
theorem c5_kept_titles_have_keyword_witness :
    ("Atlassian System Design Interview" ∈ known_questions "Atlassian" ∨
      ∃ w ∈ (["design", "system", "interview"] : List String),
        pyIn w (pyLower "Atlassian System Design Interview") = true) ∧
    ("PayPal system design round" ∈ common_questions "PayPal" ∨
      ∃ w ∈ (["system design", "design", "architecture"] : List String),
        pyIn w (pyLower "PayPal system design round") = true) ∧
    (∃ w ∈ (["design", "system", "interview", "experience"] : List String),
      pyIn w (pyLower "Mastercard interview experience thread") = true) := by
  obtain ⟨h1, h2, h3⟩ := c5_kept_titles_have_keyword (fun l => l.dedup)
    dedup_isSetListing
  refine ⟨h1 (Fetch.ok 200 ["Atlassian System Design Interview"]) "Atlassian"
      "Atlassian System Design Interview" (by decide), ?_, ?_⟩
  · exact h2 (Fetch.ok 200 [some "PayPal system design round"]) Fetch.exn
      Fetch.exn "PayPal"
      ("PayPal system design round" :: common_questions "PayPal")
      "PayPal system design round" (by decide) (by decide)
  · exact h3 "Mastercard"
      (fun _ => Fetch.ok 200 ["Mastercard interview experience thread"])
      "Mastercard interview experience thread" (by decide)

/-- C3: in the JSON-output variant, any response with status other than
exactly 200 (201 and 204 included) makes the source helper return `None`;
extending with `None` raises a `TypeError` (modelled by `none`
propagation), `main` catches it per company, and the company's key is
absent from the results mapping that is written out. -/
theorem c3_non_200_aborts_company (status : Nat) (h : status ≠ 200) :
    (∀ topics, search_leetcode_discuss (Fetch.ok status topics) = none) ∧
    (∀ results, search_glassdoor_alternative (Fetch.ok status results) = none) ∧
    (∀ items, search_github_repos (Fetch.ok status items) = none) ∧
    (∀ topics o2 o3 (company : String) (f : List String → List String),
      scrape_company_questions (Fetch.ok status topics) o2 o3 company f = none) ∧
    (∀ (oracle : String → CompanyFetches) (f : List String → List String)
      (company : String) (qs : List String),
      scrape_company_questions (oracle company).lc (oracle company).gd
        (oracle company).gh company f = none →
      (company, qs) ∉ json_main oracle f) := by
  have hBeq : (status == 200) = false := by
    simpa using h
  refine ⟨?_, ?_, ?_, ?_, ?_⟩
  · intro topics
    simp [search_leetcode_discuss, hBeq]
  · intro results
    simp [search_glassdoor_alternative, hBeq]
  · intro items
    simp [search_github_repos, hBeq]
  · intro topics o2 o3 company f
    simp [scrape_company_questions, search_leetcode_discuss, hBeq]
  · intro oracle f company qs hnone hmem
    obtain ⟨c, -, hmap⟩ := List.mem_filterMap.mp hmem
    obtain ⟨a, ha, hpair⟩ := Option.map_eq_some'.mp hmap
    simp only [Prod.mk.injEq] at hpair
    obtain ⟨rfl, rfl⟩ := hpair
    exact absurd ha (by simp [hnone])

/-- Witness for C3 at the 2xx status 201: every helper returns `None`, the
company scrape aborts, and Atlassian is absent from the results mapping. -/
theorem c3_non_200_aborts_company_witness :
    search_leetcode_discuss (Fetch.ok 201 []) = none ∧
    search_glassdoor_alternative (Fetch.ok 201 []) = none ∧
    search_github_repos (Fetch.ok 201 []) = none ∧
    scrape_company_questions (Fetch.ok 201 []) Fetch.exn Fetch.exn "Atlassian"
      (fun l => l.dedup) = none ∧
    ("Atlassian", ([] : List String)) ∉
      json_main (fun _ => ⟨Fetch.ok 201 [], Fetch.exn, Fetch.exn⟩)
        (fun l => l.dedup) := by
  obtain ⟨h1, h2, h3, h4, h5⟩ := c3_non_200_aborts_company 201 (by decide)
  exact ⟨h1 [], h2 [], h3 [], h4 [] Fetch.exn Fetch.exn "Atlassian" (fun l => l.dedup),
    h5 (fun _ => ⟨Fetch.ok 201 [], Fetch.exn, Fetch.exn⟩) (fun l => l.dedup)
      "Atlassian" [] (by decide)⟩

/-- C2 as stated is false on the JSON-output variant: there, a non-2xx
response does not yield zero titles with processing continuing — the
helper returns `None` and the whole company run aborts. Concretely, with a
500 response from the LeetCode query and clean 200 responses from the
other sources, Atlassian produces no collection at all (`none`), whereas
the exception path on the very same query — the one that really is
skipped — continues and still produces the fallback list. -/
theorem c2_counterexample :
    search_leetcode_discuss (Fetch.ok 500 []) = none ∧
    scrape_company_questions (Fetch.ok 500 []) (Fetch.ok 200 [])
      (Fetch.ok 200 []) "Atlassian" (fun l => l.dedup) = none ∧
    scrape_company_questions Fetch.exn (Fetch.ok 200 [])
      (Fetch.ok 200 []) "Atlassian" (fun l => l.dedup) =
      some (common_questions "Atlassian") := by decide

/-- C2 amended: a non-2xx response yields zero titles from its query in
the text-sink variant (`harvestDDG` empty, the result is exactly the
deduplicated fallback) and in the enhanced variant
(`query_contribution` empty, processing continues with the next query);
in the JSON-output variant a non-200 response instead makes the source
helper return `None`, and the company's run aborts with a `TypeError`. -/
theorem c2_non_2xx_zero_titles (status : Nat)
    (h : ¬(200 ≤ status ∧ status < 300)) :
    (∀ (doc : List String) (company : String) (f : List String → List String),
      harvestDDG (Fetch.ok status doc) = [] ∧
      search_questions (Fetch.ok status doc) company f =
        f (known_questions company)) ∧
    (∀ doc : List String, query_contribution (Fetch.ok status doc) = []) ∧
    (∀ topics, search_leetcode_discuss (Fetch.ok status topics) = none) ∧
    (∀ topics o2 o3 (company : String) (f : List String → List String),
      scrape_company_questions (Fetch.ok status topics) o2 o3 company f = none) := by
  have hne : status ≠ 200 := by
    rintro rfl
    exact h ⟨by decide, by decide⟩
  have hBeq : (status == 200) = false := by simpa using hne
  refine ⟨?_, ?_, ?_, ?_⟩
  · intro doc company f
    constructor
    · simp [harvestDDG, hBeq]
    · simp [search_questions, harvestDDG, hBeq]
  · intro doc
    simp [query_contribution, hBeq]
  · intro topics
    simp [search_leetcode_discuss, hBeq]
  · intro topics o2 o3 company f
    simp [scrape_company_questions, search_leetcode_discuss, hBeq]

/-- Witness for the amended C2 at the non-2xx status 418. -/
theorem c2_non_2xx_zero_titles_witness :
    harvestDDG (Fetch.ok 418 ["Atlassian design interview"]) = [] ∧
    search_questions (Fetch.ok 418 ["Atlassian design interview"]) "Atlassian"
      (fun l => l.dedup) = (fun l => l.dedup) (known_questions "Atlassian") ∧
    query_contribution (Fetch.ok 418 ["Atlassian design interview"]) = [] ∧
    search_leetcode_discuss (Fetch.ok 418 []) = none ∧
    scrape_company_questions (Fetch.ok 418 []) Fetch.exn Fetch.exn "PayPal"
      (fun l => l.dedup) = none := by
  obtain ⟨h1, h2, h3, h4⟩ := c2_non_2xx_zero_titles 418 (by decide)
  exact ⟨(h1 ["Atlassian design interview"] "Atlassian" (fun l => l.dedup)).1,
    (h1 ["Atlassian design interview"] "Atlassian" (fun l => l.dedup)).2,
    h2 ["Atlassian design interview"], h3 [],
    h4 [] Fetch.exn Fetch.exn "PayPal" (fun l => l.dedup)⟩

/-- C8 as stated is false: `search_questions` returns `list(set(...))`,
whose iteration order is unspecified, so the 5 numbered lines need not
appear in the fallback list's original order. Under the admissible set
listing `revListing` (see `revListing_isSetListing`), the section produced
for Atlassian with zero network results differs from the claimed section
whose numbered lines follow the fallback list's order. -/
theorem c8_counterexample :
    company_section "Atlassian"
        (search_questions (Fetch.ok 200 []) "Atlassian" revListing) ≠
      ("\n" ++ eqLine) ::
      (pyUpper "Atlassian" ++ " SYSTEM DESIGN QUESTIONS") ::
      eqLine ::
      (known_questions "Atlassian").enum.map
        (fun p => toString (p.1 + 1) ++ ". " ++ p.2) := by decide

/-- C8 amended: running the text-sink variant for Atlassian with zero
network results produces a section of a three-line banner followed by
exactly 5 numbered lines whose texts are exactly the 5 fallback entries,
each exactly once (a permutation of the fallback list), in the unspecified
set-iteration order. -/
theorem c8_amended_section (f : List String → List String)
    (hf : IsSetListing f) :
    ∃ qs : List String,
      search_questions (Fetch.ok 200 []) "Atlassian" f = qs ∧
      qs.Perm (known_questions "Atlassian") ∧
      qs.length = 5 ∧
      company_section "Atlassian" qs =
        ("\n" ++ eqLine) ::
        (pyUpper "Atlassian" ++ " SYSTEM DESIGN QUESTIONS") ::
        eqLine ::
        qs.enum.map (fun p => toString (p.1 + 1) ++ ". " ++ p.2) := by
  have hperm : (f (known_questions "Atlassian")).Perm (known_questions "Atlassian") :=
    (List.perm_ext_iff_of_nodup ((hf _).1) (by decide)).mpr ((hf _).2)
  refine ⟨f (known_questions "Atlassian"), rfl, hperm, ?_, rfl⟩
  rw [hperm.length_eq]
  rfl

/-- Witness for the amended C8 under the set listing `List.dedup`. -/
theorem c8_amended_section_witness :
    ∃ qs : List String,
      search_questions (Fetch.ok 200 []) "Atlassian" (fun l => l.dedup) = qs ∧
      qs.Perm (known_questions "Atlassian") ∧
      qs.length = 5 ∧
      company_section "Atlassian" qs =
        ("\n" ++ eqLine) ::
        (pyUpper "Atlassian" ++ " SYSTEM DESIGN QUESTIONS") ::
        eqLine ::
        qs.enum.map (fun p => toString (p.1 + 1) ++ ". " ++ p.2) :=
  c8_amended_section (fun l => l.dedup) dedup_isSetListing

/-- Keys of the JSON results mapping: exactly the companies whose scrape
returned a list, in company-list order. -/
theorem keys_of_filterMap {g : String → Option (List String)} :
    ∀ l : List String,
      (l.filterMap (fun c => (g c).map (fun qs => (c, qs)))).map Prod.fst =
      l.filter (fun c => (g c).isSome)
  | [] => rfl
  | a :: l => by
      cases hg : g a <;>
        simp [List.filterMap_cons, hg, keys_of_filterMap l]

/-- C9: per-company fault isolation. In the JSON-output variant every
company whose scrape succeeds lands in the results mapping — whatever
happened to the other companies — and the per-company loop visits every
company of the fixed list; in both text variants the per-company banner is
written for every company under arbitrary fetch outcomes, since all
per-query exceptions are handled inside the search routines. -/
theorem c9_per_company_isolation :
    (∀ (oracle : String → CompanyFetches) (f : List String → List String)
      (company : String) (res : List String), company ∈ companies →
      scrape_company_questions (oracle company).lc (oracle company).gd
        (oracle company).gh company f = some res →
      (company, res) ∈ json_main oracle f) ∧
    (∀ (oracle : String → CompanyFetches) (f : List String → List String),
      (json_main oracle f).map Prod.fst =
      companies.filter (fun c =>
        (scrape_company_questions (oracle c).lc (oracle c).gd (oracle c).gh
          c f).isSome)) ∧
    (∀ (oracle : String → Fetch (List String)) (f : List String → List String)
      (company : String), company ∈ companies →
      (pyUpper company ++ " SYSTEM DESIGN QUESTIONS") ∈ text_main oracle f) ∧
    (∀ (oracle : String → Fetch (List String)) (f : List String → List String)
      (company : String), company ∈ companies →
      (pyUpper company ++ " - ADDITIONAL QUESTIONS FOUND\n") ∈
        enhanced_main oracle f) := by
  refine ⟨?_, ?_, ?_, ?_⟩
  · intro oracle f company res hc h
    exact List.mem_filterMap.mpr ⟨company, hc, by rw [h]; rfl⟩
  · intro oracle f
    exact keys_of_filterMap companies
  · intro oracle f company hc
    refine List.mem_flatten.mpr
      ⟨company_section company (search_questions (oracle company) company f),
        List.mem_map.mpr ⟨company, hc, rfl⟩, ?_⟩
    exact List.mem_cons_of_mem _ (List.mem_cons_self _ _)
  · intro oracle f company hc
    refine List.mem_flatten.mpr
      ⟨enhanced_section company (search_comprehensive company oracle f),
        List.mem_map.mpr ⟨company, hc, rfl⟩, ?_⟩
    exact List.mem_cons_of_mem _ (List.mem_cons_self _ _)

/-- Witness for C9: with Atlassian aborting on a 500 LeetCode response and
the other companies failing only at the network level, PayPal still lands
in the JSON results mapping, and the text banners appear for Mastercard
under all-failing runs. -/
theorem c9_per_company_isolation_witness :
    ("PayPal", common_questions "PayPal") ∈
      json_main (fun c => if c = "Atlassian" then
          ⟨Fetch.ok 500 [], Fetch.exn, Fetch.exn⟩ else
          ⟨Fetch.exn, Fetch.exn, Fetch.exn⟩) (fun l => l.dedup) ∧
    (pyUpper "Mastercard" ++ " SYSTEM DESIGN QUESTIONS") ∈
      text_main (fun _ => Fetch.exn) (fun l => l.dedup) ∧
    (pyUpper "Mastercard" ++ " - ADDITIONAL QUESTIONS FOUND\n") ∈
      enhanced_main (fun _ => Fetch.exn) (fun l => l.dedup) := by
  obtain ⟨h1, -, h3, h4⟩ := c9_per_company_isolation
  exact ⟨h1 (fun c => if c = "Atlassian" then
      ⟨Fetch.ok 500 [], Fetch.exn, Fetch.exn⟩ else
      ⟨Fetch.exn, Fetch.exn, Fetch.exn⟩) (fun l => l.dedup) "PayPal"
      (common_questions "PayPal") (by decide) (by decide),
    h3 (fun _ => Fetch.exn) (fun l => l.dedup) "Mastercard" (by decide),
    h4 (fun _ => Fetch.exn) (fun l => l.dedup) "Mastercard" (by decide)⟩
